import Mathlib

/-!
Verification of the timesheet sync/aggregation pipeline of the
zoho-time-report repository.

The development shallowly embeds the relevant TypeScript source:

* `client/src/lib/types.ts` — the record/entry/summary data model
  (JS `number` hour fields are modelled as exact rationals `ℚ`);
* `client/src/lib/api.ts` — `processTimesheetData`, the pure aggregation
  engine (JS `Map` is modelled as an insertion-ordered association list);
* the server storage layer (`DatabaseStorage`) — `clearUserTimesheetData`,
  `saveTimeEntry`, `saveProjectHours`/`saveEmployeeHours` upserts, and the
  Zoho credential handlers `getZohoStatus` / `disconnectZoho`
  (the Postgres tables are modelled as row lists; `serial` surrogate ids
  and `createdAt` audit columns that no claim mentions are omitted);
* `sync.ts` — `syncTimesheetData`, with the HTTP fetch outcome, the
  random fixture fallback, and the current time passed as explicit inputs;
* `client/src/lib/utils.ts` — `calculateDateRangeFromString`, over a model
  of the JS `Date(year, month, day)` proleptic-Gregorian normalization.
-/

namespace ZohoTimeReport

/-- Floating tolerance used by the spec's testable properties (1e-9). -/
def tol : ℚ := 1 / 1000000000

/-- Raw record from the Zoho People API, interface `ZohoTimesheetRecord`
in `client/src/lib/types.ts`. Hour fields are rationals. -/
structure ZohoTimesheetRecord where
  jobId : String
  jobName : String
  projectId : String
  projectName : String
  taskId : String
  taskName : String
  clientId : String
  clientName : String
  userId : String
  userName : String
  billableHours : ℚ
  nonBillableHours : ℚ
  totalHours : ℚ
  timesheet_id : String
  work_date : String
  workDate : String
  workHours : ℚ
  workMinutes : ℚ
  approvalStatus : String
  notes : String
  deriving Repr, DecidableEq

/-- Normalized entry, interface `TimeEntry` in `client/src/lib/types.ts`.
`processTimesheetData` always assigns `job` from the record's `jobName`
string, so the optional `job?` field is modelled as a `String`. -/
structure TimeEntry where
  id : String
  date : String
  project : String
  employee : String
  job : String
  billableHours : ℚ
  nonBillableHours : ℚ
  totalHours : ℚ
  deriving Repr, DecidableEq

/-- Per-project rollup, interface `ProjectHours` in `client/src/lib/types.ts`.
The interface `EmployeeHours` declares exactly the same four fields, so the
same structure is reused for both rollups. -/
structure ProjectHours where
  name : String
  billableHours : ℚ
  nonBillableHours : ℚ
  totalHours : ℚ
  deriving Repr, DecidableEq

/-- Per-employee rollup, interface `EmployeeHours` in `client/src/lib/types.ts`
(field-for-field identical to `ProjectHours`). -/
abbrev EmployeeHours := ProjectHours

/-- Dashboard stats, interface `TimesheetStats` in `client/src/lib/types.ts`.
The two `active*` counts are array lengths, kept as naturals. -/
structure TimesheetStats where
  billableHours : ℚ
  nonBillableHours : ℚ
  totalHours : ℚ
  activeProjects : ℕ
  activeEmployees : ℕ
  billablePercentChange : ℚ
  nonBillablePercentChange : ℚ
  projectsChange : ℚ
  deriving Repr, DecidableEq

/-- Result shape of `processTimesheetData`, interface `TimesheetData` in
`client/src/lib/types.ts`. -/
structure TimesheetData where
  timeEntries : List TimeEntry
  projectHours : List ProjectHours
  employeeHours : List EmployeeHours
  stats : TimesheetStats
  deriving Repr, DecidableEq

/-! ### JS `Map` model

`processTimesheetData` builds its rollups in a JS `Map`.  A `Map` iterates
its values in key-insertion order and updates a present key in place, which
an association list reproduces exactly: `mapGet` is `Map.prototype.get`,
`mapSet` is `Map.prototype.set`, and `List.map Prod.snd` is
`Array.from(map.values())`. -/

/-- `Map.prototype.get`: first (unique) binding of the key, if any. -/
def mapGet {α : Type} (k : String) : List (String × α) → Option α
  | [] => none
  | (k', v) :: rest => if k' = k then some v else mapGet k rest

/-- `Map.prototype.set`: overwrite the key's binding in place, else append. -/
def mapSet {α : Type} (k : String) (v : α) : List (String × α) → List (String × α)
  | [] => [(k, v)]
  | (k', v') :: rest => if k' = k then (k, v) :: rest else (k', v') :: mapSet k v rest

/-- One iteration of the duplicated `data.forEach` aggregation loops in
`processTimesheetData` (`client/src/lib/api.ts`): read the existing summary
for the record's key (defaulting to a zero summary named after the key),
add the record's three hour fields, and store the summary back.  `key`
abstracts the only difference between the two loops (`record.projectName`
for projects, `record.userName` for employees). -/
def groupStep (key : ZohoTimesheetRecord → String)
    (m : List (String × ProjectHours)) (record : ZohoTimesheetRecord) :
    List (String × ProjectHours) :=
  let existing := (mapGet (key record) m).getD
    { name := key record, billableHours := 0, nonBillableHours := 0, totalHours := 0 }
  mapSet (key record)
    { existing with
        billableHours := existing.billableHours + record.billableHours
        nonBillableHours := existing.nonBillableHours + record.nonBillableHours
        totalHours := existing.totalHours + record.totalHours } m

/-- A whole `data.forEach(...)` aggregation loop over an initially empty map. -/
def accumulate (key : ZohoTimesheetRecord → String)
    (data : List ZohoTimesheetRecord) : List (String × ProjectHours) :=
  data.foldl (groupStep key) []

/-- `Array.from(map.values())` after a grouping loop. -/
def groupHours (key : ZohoTimesheetRecord → String)
    (data : List ZohoTimesheetRecord) : List ProjectHours :=
  (accumulate key data).map Prod.snd

/-- The 1:1 record-to-entry mapping at the top of `processTimesheetData`
(`client/src/lib/api.ts`, the `data.map(record => ...)`). -/
def toTimeEntry (record : ZohoTimesheetRecord) : TimeEntry :=
  { id := record.timesheet_id
    date := record.workDate
    project := record.projectName
    employee := record.userName
    job := record.jobName
    billableHours := record.billableHours
    nonBillableHours := record.nonBillableHours
    totalHours := record.totalHours }

/-- `processTimesheetData` from `client/src/lib/api.ts`: map each raw record
1:1 to a `TimeEntry`, aggregate by project name and by employee name, and
compute the dashboard stats (the three percent-change fields are the
hard-coded demo constants from the source). -/
def processTimesheetData (data : List ZohoTimesheetRecord) : TimesheetData :=
  let timeEntries : List TimeEntry := data.map toTimeEntry
  let projectHours : List ProjectHours := groupHours (fun r => r.projectName) data
  let employeeHours : List EmployeeHours := groupHours (fun r => r.userName) data
  let totalBillableHours := timeEntries.foldl (fun sum entry => sum + entry.billableHours) 0
  let totalNonBillableHours := timeEntries.foldl (fun sum entry => sum + entry.nonBillableHours) 0
  { timeEntries := timeEntries
    projectHours := projectHours
    employeeHours := employeeHours
    stats :=
      { billableHours := totalBillableHours
        nonBillableHours := totalNonBillableHours
        totalHours := totalBillableHours + totalNonBillableHours
        activeProjects := projectHours.length
        activeEmployees := employeeHours.length
        billablePercentChange := 8.2
        nonBillablePercentChange := 3.4
        projectsChange := 1 } }

/-! ### Association-list (JS `Map`) lemmas -/

theorem mapGet_mapSet_self {α : Type} (k : String) (v : α) (m : List (String × α)) :
    mapGet k (mapSet k v m) = some v := by
  induction m with
  | nil => simp [mapGet, mapSet]
  | cons p rest ih =>
    obtain ⟨k', v'⟩ := p
    by_cases h : k' = k
    · simp [mapSet, h, mapGet]
    · simp [mapSet, h, mapGet, ih]

theorem mapGet_mapSet_ne {α : Type} {k k' : String} (v : α) (m : List (String × α))
    (h : k ≠ k') : mapGet k (mapSet k' v m) = mapGet k m := by
  induction m with
  | nil => simp [mapGet, mapSet, Ne.symm h]
  | cons p rest ih =>
    obtain ⟨k₀, v₀⟩ := p
    by_cases h0 : k₀ = k'
    · subst h0
      simp [mapSet, mapGet, Ne.symm h]
    · simp [mapSet, h0, mapGet, ih]

theorem mapGet_eq_none_iff {α : Type} (k : String) (m : List (String × α)) :
    mapGet k m = none ↔ k ∉ m.map Prod.fst := by
  induction m with
  | nil => simp [mapGet]
  | cons p rest ih =>
    obtain ⟨k', v'⟩ := p
    by_cases h : k' = k
    · simp [mapGet, h]
    · simp [mapGet, h, ih, Ne.symm h]

theorem keys_mapSet {α : Type} (k : String) (v : α) (m : List (String × α)) :
    (mapSet k v m).map Prod.fst =
      if k ∈ m.map Prod.fst then m.map Prod.fst else m.map Prod.fst ++ [k] := by
  induction m with
  | nil => simp [mapSet]
  | cons p rest ih =>
    obtain ⟨k', v'⟩ := p
    by_cases h : k' = k
    · subst h
      simp [mapSet]
    · by_cases hk : k ∈ rest.map Prod.fst
      · simp [mapSet, h, ih, hk, Ne.symm h]
      · simp [mapSet, h, ih, hk, Ne.symm h]

theorem nodup_keys_mapSet {α : Type} (k : String) (v : α) (m : List (String × α))
    (h : (m.map Prod.fst).Nodup) : ((mapSet k v m).map Prod.fst).Nodup := by
  rw [keys_mapSet]
  split
  · exact h
  · next hk => simp [List.nodup_append, h, hk]

theorem mem_mapSet {α : Type} {k : String} {v : α} {m : List (String × α)}
    {p : String × α} (hp : p ∈ mapSet k v m) : p = (k, v) ∨ p ∈ m := by
  induction m with
  | nil => simpa [mapSet] using hp
  | cons q rest ih =>
    obtain ⟨k', v'⟩ := q
    by_cases h : k' = k
    · simp [mapSet, h] at hp
      rcases hp with h1 | h1
      · exact Or.inl h1
      · exact Or.inr (List.mem_cons_of_mem _ h1)
    · simp [mapSet, h] at hp
      rcases hp with h1 | h1
      · exact Or.inr (by simp [h1])
      · rcases ih h1 with h2 | h2
        · exact Or.inl h2
        · exact Or.inr (List.mem_cons_of_mem _ h2)

theorem mem_of_mapGet_eq_some {α : Type} {k : String} {v : α} {m : List (String × α)}
    (h : mapGet k m = some v) : (k, v) ∈ m := by
  induction m with
  | nil => simp [mapGet] at h
  | cons p rest ih =>
    obtain ⟨k', v'⟩ := p
    by_cases hk : k' = k
    · subst hk
      simp [mapGet] at h
      simp [h]
    · simp [mapGet, hk] at h
      exact List.mem_cons_of_mem _ (ih h)

theorem mapGet_eq_some_of_mem {α : Type} {k : String} {v : α} {m : List (String × α)}
    (hnd : (m.map Prod.fst).Nodup) (hp : (k, v) ∈ m) : mapGet k m = some v := by
  induction m with
  | nil => simp at hp
  | cons p rest ih =>
    obtain ⟨k', v'⟩ := p
    rw [List.map_cons, List.nodup_cons] at hnd
    rcases List.mem_cons.mp hp with h1 | h1
    · simp only [Prod.mk.injEq] at h1
      obtain ⟨hk, hv⟩ := h1
      subst hk
      subst hv
      simp [mapGet]
    · have hne : k' ≠ k := by
        intro e
        apply hnd.1
        rw [e]
        exact List.mem_map.mpr ⟨(k, v), h1, rfl⟩
      simp [mapGet, hne, ih hnd.2 h1]

/-! ### Aggregation lemmas -/

/-- The record-update applied to a summary at each aggregation step. -/
def bump (v : ProjectHours) (r : ZohoTimesheetRecord) : ProjectHours :=
  { v with
      billableHours := v.billableHours + r.billableHours
      nonBillableHours := v.nonBillableHours + r.nonBillableHours
      totalHours := v.totalHours + r.totalHours }

/-- The zero summary a group starts from. -/
def zeroHours (k : String) : ProjectHours :=
  { name := k, billableHours := 0, nonBillableHours := 0, totalHours := 0 }

/-- Billable hours summed over a record list. -/
def sumBillable (l : List ZohoTimesheetRecord) : ℚ := (l.map (fun r => r.billableHours)).sum

/-- Non-billable hours summed over a record list. -/
def sumNonBillable (l : List ZohoTimesheetRecord) : ℚ := (l.map (fun r => r.nonBillableHours)).sum

/-- Total hours summed over a record list. -/
def sumTotal (l : List ZohoTimesheetRecord) : ℚ := (l.map (fun r => r.totalHours)).sum

theorem mapGet_groupStep (key : ZohoTimesheetRecord → String)
    (m : List (String × ProjectHours)) (r : ZohoTimesheetRecord) (k : String) :
    mapGet k (groupStep key m r) =
      if key r = k then some (bump ((mapGet k m).getD (zeroHours k)) r)
      else mapGet k m := by
  by_cases h : key r = k
  · subst h
    simp only [groupStep, if_pos rfl, mapGet_mapSet_self]
    rfl
  · simp only [groupStep, if_neg h]
    exact mapGet_mapSet_ne _ _ (fun e => h e.symm)

theorem mapGet_foldl_groupStep (key : ZohoTimesheetRecord → String)
    (data : List ZohoTimesheetRecord) :
    ∀ (m : List (String × ProjectHours)) (k : String),
      mapGet k (data.foldl (groupStep key) m) =
        (data.filter (fun r => key r == k)).foldl
          (fun o r => some (bump (o.getD (zeroHours k)) r)) (mapGet k m) := by
  induction data with
  | nil => intro m k; rfl
  | cons r data ih =>
    intro m k
    rw [List.foldl_cons, ih (groupStep key m r) k, mapGet_groupStep, List.filter_cons]
    by_cases h : key r = k
    · simp [h]
    · simp [h]

theorem optionFold_some (k : String) (l : List ZohoTimesheetRecord) :
    ∀ v : ProjectHours,
      l.foldl (fun o r => some (bump (o.getD (zeroHours k)) r)) (some v) =
        some { v with
                 billableHours := v.billableHours + sumBillable l
                 nonBillableHours := v.nonBillableHours + sumNonBillable l
                 totalHours := v.totalHours + sumTotal l } := by
  induction l with
  | nil =>
    intro v
    simp [sumBillable, sumNonBillable, sumTotal]
  | cons r l ih =>
    intro v
    obtain ⟨n, b, nb, t⟩ := v
    simp only [List.foldl_cons, Option.getD_some, ih]
    simp [bump, sumBillable, sumNonBillable, sumTotal, add_assoc]

theorem optionFold_none (k : String) (l : List ZohoTimesheetRecord) (h : l ≠ []) :
    l.foldl (fun o r => some (bump (o.getD (zeroHours k)) r)) none =
      some { name := k, billableHours := sumBillable l
             nonBillableHours := sumNonBillable l, totalHours := sumTotal l } := by
  cases l with
  | nil => exact absurd rfl h
  | cons r l =>
    simp only [List.foldl_cons, Option.getD_none, optionFold_some]
    simp [bump, zeroHours, sumBillable, sumNonBillable, sumTotal]

theorem mapGet_accumulate (key : ZohoTimesheetRecord → String)
    (data : List ZohoTimesheetRecord) (k : String) :
    mapGet k (accumulate key data) =
      if (data.filter (fun r => key r == k)) = [] then none
      else some { name := k
                  billableHours := sumBillable (data.filter (fun r => key r == k))
                  nonBillableHours := sumNonBillable (data.filter (fun r => key r == k))
                  totalHours := sumTotal (data.filter (fun r => key r == k)) } := by
  unfold accumulate
  rw [mapGet_foldl_groupStep]
  by_cases h : data.filter (fun r => key r == k) = []
  · simp [h, mapGet]
  · simp only [mapGet, optionFold_none k _ h, if_neg h]

/-- Every binding of an aggregation map names its key. -/
def NamesMatch (m : List (String × ProjectHours)) : Prop :=
  ∀ p ∈ m, (Prod.snd p).name = p.1

theorem namesMatch_groupStep (key : ZohoTimesheetRecord → String)
    {m : List (String × ProjectHours)} (r : ZohoTimesheetRecord)
    (h : NamesMatch m) : NamesMatch (groupStep key m r) := by
  intro p hp
  unfold groupStep at hp
  rcases mem_mapSet hp with h1 | h1
  · subst h1
    cases hget : mapGet (key r) m with
    | none => simp [hget]
    | some e =>
      have he : e.name = key r := h (key r, e) (mem_of_mapGet_eq_some hget)
      simp [hget, he]
  · exact h p h1

theorem namesMatch_foldl (key : ZohoTimesheetRecord → String)
    (data : List ZohoTimesheetRecord) :
    ∀ m, NamesMatch m → NamesMatch (data.foldl (groupStep key) m) := by
  induction data with
  | nil => intro m h; exact h
  | cons r data ih =>
    intro m h
    exact ih _ (namesMatch_groupStep key r h)

theorem namesMatch_accumulate (key : ZohoTimesheetRecord → String)
    (data : List ZohoTimesheetRecord) : NamesMatch (accumulate key data) :=
  namesMatch_foldl key data [] (by intro p hp; simp at hp)

theorem nodup_keys_foldl (key : ZohoTimesheetRecord → String)
    (data : List ZohoTimesheetRecord) :
    ∀ m, (m.map Prod.fst).Nodup → (((data.foldl (groupStep key) m)).map Prod.fst).Nodup := by
  induction data with
  | nil => intro m h; exact h
  | cons r data ih =>
    intro m h
    exact ih _ (nodup_keys_mapSet _ _ _ h)

theorem nodup_keys_accumulate (key : ZohoTimesheetRecord → String)
    (data : List ZohoTimesheetRecord) : ((accumulate key data).map Prod.fst).Nodup :=
  nodup_keys_foldl key data [] (by simp)

/-! ### Facts about `groupHours` and `processTimesheetData` -/

theorem foldl_add_init {α : Type} (g : α → ℚ) (l : List α) :
    ∀ a : ℚ, l.foldl (fun s x => s + g x) a = a + (l.map g).sum := by
  induction l with
  | nil => intro a; simp
  | cons x l ih => intro a; simp [ih, add_assoc]

theorem filter_map_swap {α β : Type} (f : α → β) (p : β → Bool) (l : List α) :
    (l.map f).filter p = (l.filter (fun a => p (f a))).map f := by
  induction l with
  | nil => rfl
  | cons x l ih =>
    by_cases h : p (f x) = true
    · simp [List.filter_cons, h, ih]
    · simp [List.filter_cons, h, ih]

theorem mem_groupHours_iff (key : ZohoTimesheetRecord → String)
    (data : List ZohoTimesheetRecord) (s : ProjectHours) :
    s ∈ groupHours key data ↔ mapGet s.name (accumulate key data) = some s := by
  constructor
  · intro hs
    obtain ⟨p, hp, hps⟩ := List.mem_map.mp hs
    have hname : s.name = p.1 := by
      rw [← hps]
      exact namesMatch_accumulate key data p hp
    rw [hname]
    apply mapGet_eq_some_of_mem (nodup_keys_accumulate key data)
    have hpair : (p.1, p.2) ∈ accumulate key data := by simpa using hp
    rwa [hps] at hpair
  · intro h
    exact List.mem_map.mpr ⟨(s.name, s), mem_of_mapGet_eq_some h, rfl⟩

theorem groupHours_names_nodup (key : ZohoTimesheetRecord → String)
    (data : List ZohoTimesheetRecord) :
    ((groupHours key data).map ProjectHours.name).Nodup := by
  have heq : (groupHours key data).map ProjectHours.name =
      (accumulate key data).map Prod.fst := by
    unfold groupHours
    rw [List.map_map]
    apply List.map_congr_left
    intro p hp
    exact namesMatch_accumulate key data p hp
  rw [heq]
  exact nodup_keys_accumulate key data

theorem exists_groupHours_name_iff (key : ZohoTimesheetRecord → String)
    (data : List ZohoTimesheetRecord) (n : String) :
    (∃ s ∈ groupHours key data, s.name = n) ↔ n ∈ data.map key := by
  constructor
  · rintro ⟨s, hs, rfl⟩
    have h := (mem_groupHours_iff key data s).mp hs
    rw [mapGet_accumulate] at h
    by_cases hf : data.filter (fun r => key r == s.name) = []
    · rw [if_pos hf] at h
      exact absurd h (by simp)
    · obtain ⟨r, hr⟩ := List.exists_mem_of_ne_nil _ hf
      have hrmem := List.mem_filter.mp hr
      exact List.mem_map.mpr ⟨r, hrmem.1, by simpa using hrmem.2⟩
  · intro hn
    obtain ⟨r, hr, hrn⟩ := List.mem_map.mp hn
    have hf : data.filter (fun r => key r == n) ≠ [] := by
      intro he
      have := List.filter_eq_nil_iff.mp he r hr
      simp [hrn] at this
    refine ⟨{ name := n
              billableHours := sumBillable (data.filter (fun r => key r == n))
              nonBillableHours := sumNonBillable (data.filter (fun r => key r == n))
              totalHours := sumTotal (data.filter (fun r => key r == n)) }, ?_, rfl⟩
    apply (mem_groupHours_iff key data _).mpr
    rw [mapGet_accumulate, if_neg hf]

theorem groupHours_sums (key : ZohoTimesheetRecord → String)
    (data : List ZohoTimesheetRecord) :
    ∀ s ∈ groupHours key data,
      s.billableHours = sumBillable (data.filter (fun r => key r == s.name)) ∧
      s.nonBillableHours = sumNonBillable (data.filter (fun r => key r == s.name)) ∧
      s.totalHours = sumTotal (data.filter (fun r => key r == s.name)) := by
  intro s hs
  have h := (mem_groupHours_iff key data s).mp hs
  rw [mapGet_accumulate] at h
  by_cases hf : data.filter (fun r => key r == s.name) = []
  · rw [if_pos hf] at h
    exact absurd h (by simp)
  · rw [if_neg hf] at h
    obtain ⟨n, b, nb, t⟩ := s
    simp only [Option.some.injEq, ProjectHours.mk.injEq] at h
    exact ⟨h.2.1.symm, h.2.2.1.symm, h.2.2.2.symm⟩

theorem processTimesheetData_timeEntries (data : List ZohoTimesheetRecord) :
    (processTimesheetData data).timeEntries = data.map toTimeEntry := rfl

theorem processTimesheetData_projectHours (data : List ZohoTimesheetRecord) :
    (processTimesheetData data).projectHours = groupHours (fun r => r.projectName) data := rfl

theorem processTimesheetData_employeeHours (data : List ZohoTimesheetRecord) :
    (processTimesheetData data).employeeHours = groupHours (fun r => r.userName) data := rfl

theorem entries_sum_billable (data : List ZohoTimesheetRecord) :
    ((processTimesheetData data).timeEntries.map TimeEntry.billableHours).sum =
      sumBillable data := by
  rw [processTimesheetData_timeEntries, List.map_map]
  rfl

theorem entries_sum_nonBillable (data : List ZohoTimesheetRecord) :
    ((processTimesheetData data).timeEntries.map TimeEntry.nonBillableHours).sum =
      sumNonBillable data := by
  rw [processTimesheetData_timeEntries, List.map_map]
  rfl

theorem entries_sum_total (data : List ZohoTimesheetRecord) :
    ((processTimesheetData data).timeEntries.map TimeEntry.totalHours).sum =
      sumTotal data := by
  rw [processTimesheetData_timeEntries, List.map_map]
  rfl

theorem stats_billable (data : List ZohoTimesheetRecord) :
    (processTimesheetData data).stats.billableHours = sumBillable data := by
  show (data.map toTimeEntry).foldl (fun sum entry => sum + entry.billableHours) 0 = _
  rw [foldl_add_init TimeEntry.billableHours, List.map_map, zero_add]
  rfl

theorem stats_nonBillable (data : List ZohoTimesheetRecord) :
    (processTimesheetData data).stats.nonBillableHours = sumNonBillable data := by
  show (data.map toTimeEntry).foldl (fun sum entry => sum + entry.nonBillableHours) 0 = _
  rw [foldl_add_init TimeEntry.nonBillableHours, List.map_map, zero_add]
  rfl

theorem stats_total (data : List ZohoTimesheetRecord) :
    (processTimesheetData data).stats.totalHours = sumBillable data + sumNonBillable data := by
  show ((data.map toTimeEntry).foldl (fun sum entry => sum + entry.billableHours) 0) +
      ((data.map toTimeEntry).foldl (fun sum entry => sum + entry.nonBillableHours) 0) = _
  rw [foldl_add_init TimeEntry.billableHours, foldl_add_init TimeEntry.nonBillableHours,
    List.map_map, List.map_map, zero_add, zero_add]
  rfl

theorem entries_filter_project (data : List ZohoTimesheetRecord) (n : String) :
    (processTimesheetData data).timeEntries.filter (fun e => e.project == n) =
      (data.filter (fun r => r.projectName == n)).map toTimeEntry := by
  rw [processTimesheetData_timeEntries, filter_map_swap]
  rfl

theorem entries_filter_employee (data : List ZohoTimesheetRecord) (n : String) :
    (processTimesheetData data).timeEntries.filter (fun e => e.employee == n) =
      (data.filter (fun r => r.userName == n)).map toTimeEntry := by
  rw [processTimesheetData_timeEntries, filter_map_swap]
  rfl

/-! ### Concrete records used by counterexamples and witnesses -/

/-- A syntactically valid raw record whose reported `totalHours` (5) disagrees
with `billableHours + nonBillableHours` (2); the Zoho response mapping in
`sync.ts` takes `totalHours` verbatim from the upstream payload, so such
records reach `processTimesheetData` unchanged. -/
def mismatchedRecord : ZohoTimesheetRecord :=
  { jobId := "JOB0", jobName := "Design", projectId := "PRJ0"
    projectName := "Website Redesign", taskId := "TSK0", taskName := "Task 1"
    clientId := "CLI0", clientName := "Client 1", userId := "USR0"
    userName := "John Doe", billableHours := 1, nonBillableHours := 1
    totalHours := 5, timesheet_id := "TS1", work_date := "2025-01-01"
    workDate := "2025-01-01", workHours := 5, workMinutes := 0
    approvalStatus := "Approved", notes := "" }

/-- A raw record with consistent hours (3 + 1 = 4), shaped like the fixture
records of `generateSimulatedTimesheetData`. -/
def consistentRecord : ZohoTimesheetRecord :=
  { jobId := "JOB1", jobName := "Development", projectId := "PRJ1"
    projectName := "Mobile App Development", taskId := "TSK1", taskName := "Task 2"
    clientId := "CLI1", clientName := "Client 2", userId := "USR1"
    userName := "Jane Smith", billableHours := 3, nonBillableHours := 1
    totalHours := 4, timesheet_id := "TS2", work_date := "2025-01-02"
    workDate := "2025-01-02", workHours := 4, workMinutes := 0
    approvalStatus := "Approved", notes := "" }

/-- Like `mismatchedRecord` but with `totalHours` 10: a second independent
witness that entry totals are copied, not derived. -/
def mismatchedRecord2 : ZohoTimesheetRecord :=
  { mismatchedRecord with timesheet_id := "TS3", totalHours := 10, workHours := 10 }

/-- Like `consistentRecord` but for a second project/employee (2 + 0 = 2). -/
def consistentRecord2 : ZohoTimesheetRecord :=
  { jobId := "JOB2", jobName := "Testing", projectId := "PRJ2"
    projectName := "Data Migration", taskId := "TSK2", taskName := "Task 3"
    clientId := "CLI2", clientName := "Client 3", userId := "USR2"
    userName := "Emily Davis", billableHours := 2, nonBillableHours := 0
    totalHours := 2, timesheet_id := "TS4", work_date := "2025-01-03"
    workDate := "2025-01-03", workHours := 2, workMinutes := 0
    approvalStatus := "Approved", notes := "" }

/-! ### Claim C1 — hours conservation of the aggregation engine -/

/-- Claim C1, exactly as stated, is false: it asserts that `stats.totalHours`
equals the sum of `totalHours` over the input (within 1e-9), but the code
computes `stats.totalHours` as billable-sum + non-billable-sum.  On the
single mismatched record (billable 1, non-billable 1, reported total 5) the
stats total is 2 while the input total-hours sum is 5. -/
theorem c1_counterexample :
    ¬ (∀ data : List ZohoTimesheetRecord, data ≠ [] →
        |((processTimesheetData data).timeEntries.map TimeEntry.billableHours).sum -
            sumBillable data| < tol ∧
        |((processTimesheetData data).timeEntries.map TimeEntry.nonBillableHours).sum -
            sumNonBillable data| < tol ∧
        |((processTimesheetData data).timeEntries.map TimeEntry.totalHours).sum -
            sumTotal data| < tol ∧
        |(processTimesheetData data).stats.billableHours - sumBillable data| < tol ∧
        |(processTimesheetData data).stats.nonBillableHours - sumNonBillable data| < tol ∧
        |(processTimesheetData data).stats.totalHours - sumTotal data| < tol ∧
        (processTimesheetData data).stats.totalHours =
          (processTimesheetData data).stats.billableHours +
            (processTimesheetData data).stats.nonBillableHours) := by
  intro hclaim
  have h := (hclaim [mismatchedRecord] (by simp)).2.2.2.2.2.1
  rw [stats_total] at h
  norm_num [sumBillable, sumNonBillable, sumTotal, mismatchedRecord, tol] at h

/-- C1 (amended): for every non-empty record set the per-field sums over the
produced `timeEntries` equal the sums over the input within 1e-9 (they are in
fact exactly equal), `stats.billableHours` and `stats.nonBillableHours` equal
the billable and non-billable entry sums, and `stats.totalHours` equals
`stats.billableHours + stats.nonBillableHours` — but not, in general, the sum
of the input `totalHours` field, which the stats ignore. -/
theorem c1_conservation (data : List ZohoTimesheetRecord) (_h : data ≠ []) :
    |((processTimesheetData data).timeEntries.map TimeEntry.billableHours).sum -
        sumBillable data| < tol ∧
    |((processTimesheetData data).timeEntries.map TimeEntry.nonBillableHours).sum -
        sumNonBillable data| < tol ∧
    |((processTimesheetData data).timeEntries.map TimeEntry.totalHours).sum -
        sumTotal data| < tol ∧
    (processTimesheetData data).stats.billableHours =
      ((processTimesheetData data).timeEntries.map TimeEntry.billableHours).sum ∧
    (processTimesheetData data).stats.nonBillableHours =
      ((processTimesheetData data).timeEntries.map TimeEntry.nonBillableHours).sum ∧
    (processTimesheetData data).stats.totalHours =
      (processTimesheetData data).stats.billableHours +
        (processTimesheetData data).stats.nonBillableHours := by
  refine ⟨?_, ?_, ?_, ?_, ?_, ?_⟩
  · rw [entries_sum_billable]
    simp [tol]
  · rw [entries_sum_nonBillable]
    simp [tol]
  · rw [entries_sum_total]
    simp [tol]
  · rw [entries_sum_billable, stats_billable]
  · rw [entries_sum_nonBillable, stats_nonBillable]
  · rw [stats_total, stats_billable, stats_nonBillable]

/-- Witness for C1 at the concrete one-record input `[consistentRecord]`. -/
theorem c1_conservation_witness :
    (processTimesheetData [consistentRecord]).stats.totalHours =
      (processTimesheetData [consistentRecord]).stats.billableHours +
        (processTimesheetData [consistentRecord]).stats.nonBillableHours :=
  (c1_conservation [consistentRecord] (by simp)).2.2.2.2.2

/-! ### Claim C8 — totality and empty input -/

/-- C8: `processTimesheetData` is a total pure function (it is defined as a
total Lean function over all inputs), and on the empty record list it yields
empty entries and summaries and all-zero stats. -/
theorem c8_empty_input :
    (∀ data : List ZohoTimesheetRecord,
      (processTimesheetData data).timeEntries.length = data.length) ∧
    (processTimesheetData []).timeEntries = [] ∧
    (processTimesheetData []).projectHours = [] ∧
    (processTimesheetData []).employeeHours = [] ∧
    (processTimesheetData []).stats.billableHours = 0 ∧
    (processTimesheetData []).stats.nonBillableHours = 0 ∧
    (processTimesheetData []).stats.totalHours = 0 ∧
    (processTimesheetData []).stats.activeProjects = 0 ∧
    (processTimesheetData []).stats.activeEmployees = 0 := by
  refine ⟨?_, rfl, rfl, rfl, rfl, rfl, ?_, rfl, rfl⟩
  · intro data
    rw [processTimesheetData_timeEntries, List.length_map]
  · rw [stats_total]
    simp [sumBillable, sumNonBillable]

/-! ### Claim C4 — TimeEntry total-hours invariant -/

/-- Claim C4, exactly as stated, is false: `processTimesheetData` copies
`totalHours` verbatim from the raw record, so an input record whose reported
total (10) disagrees with billable + non-billable (2) yields an entry
violating the 1e-9 bound. -/
theorem c4_counterexample :
    ¬ (∀ (data : List ZohoTimesheetRecord),
        ∀ e ∈ (processTimesheetData data).timeEntries,
          |e.totalHours - (e.billableHours + e.nonBillableHours)| < tol) := by
  intro hclaim
  have h := hclaim [mismatchedRecord2] (toTimeEntry mismatchedRecord2)
    (by simp [processTimesheetData_timeEntries])
  norm_num [toTimeEntry, mismatchedRecord2, mismatchedRecord, tol] at h

/-- C4 (amended): entries copy the raw hour fields unchanged, so whenever
every input record satisfies the total-hours invariant within 1e-9, every
entry produced by `processTimesheetData` (hence every `TimeEntry` row stored
by a sync) satisfies it too. -/
theorem c4_total_invariant (data : List ZohoTimesheetRecord)
    (hdata : ∀ r ∈ data, |r.totalHours - (r.billableHours + r.nonBillableHours)| < tol) :
    ∀ e ∈ (processTimesheetData data).timeEntries,
      |e.totalHours - (e.billableHours + e.nonBillableHours)| < tol := by
  intro e he
  rw [processTimesheetData_timeEntries] at he
  obtain ⟨r, hr, rfl⟩ := List.mem_map.mp he
  simpa [toTimeEntry] using hdata r hr

/-- Witness for C4 at the concrete input `[consistentRecord2]`. -/
theorem c4_total_invariant_witness :
    |(toTimeEntry consistentRecord2).totalHours -
        ((toTimeEntry consistentRecord2).billableHours +
          (toTimeEntry consistentRecord2).nonBillableHours)| < tol :=
  c4_total_invariant [consistentRecord2]
    (by
      intro r hr
      rw [List.mem_singleton] at hr
      subst hr
      norm_num [consistentRecord2, tol])
    (toTimeEntry consistentRecord2) (by simp [processTimesheetData_timeEntries])

/-! ### Persistence layer (`DatabaseStorage` in the server storage module) -/

/-- Stored `time_entries` row (`shared/schema.ts`).  The `serial` surrogate id
and the defaulted `createdAt`/`updatedAt` audit columns, which no claim
mentions, are omitted. -/
structure DbTimeEntry where
  userId : ℕ
  zohoTimesheetId : String
  date : String
  project : String
  employee : String
  job : Option String
  billableHours : ℚ
  nonBillableHours : ℚ
  totalHours : ℚ
  deriving Repr, DecidableEq

/-- Stored `project_hours` row (`shared/schema.ts`); the `employee_hours`
table has identical columns, so the same structure models both.  The
`serial` surrogate id is omitted; `lastSyncDate` is an epoch timestamp. -/
structure DbProjectHours where
  userId : ℕ
  name : String
  billableHours : ℚ
  nonBillableHours : ℚ
  totalHours : ℚ
  lastSyncDate : ℤ
  deriving Repr, DecidableEq

/-- The three per-user timesheet tables, as row lists in insertion order. -/
structure Store where
  timeEntries : List DbTimeEntry
  projectHours : List DbProjectHours
  employeeHours : List DbProjectHours
  deriving Repr, DecidableEq

/-- `DatabaseStorage.clearUserTimesheetData`: delete the user's rows from the
`time_entries`, `project_hours` and `employee_hours` tables. -/
def clearUserTimesheetData (userId : ℕ) (s : Store) : Store :=
  { timeEntries := s.timeEntries.filter (fun r => r.userId != userId)
    projectHours := s.projectHours.filter (fun r => r.userId != userId)
    employeeHours := s.employeeHours.filter (fun r => r.userId != userId) }

/-- `DatabaseStorage.saveTimeEntry`: a plain insert. -/
def saveTimeEntry (entry : DbTimeEntry) (table : List DbTimeEntry) : List DbTimeEntry :=
  table ++ [entry]

/-- `DatabaseStorage.saveProjectHours` (and the line-for-line identical
`saveEmployeeHours`): select the first row with the same user and name; if it
exists, update that row in place with the new values, else insert. -/
def saveProjectHours (row : DbProjectHours) : List DbProjectHours → List DbProjectHours
  | [] => [row]
  | r :: rest =>
    if r.userId = row.userId ∧ r.name = row.name then row :: rest
    else r :: saveProjectHours row rest

/-- The row built for `storage.saveTimeEntry({...})` in `syncTimesheetData`
(`entry.job || null` sends SQL NULL for the empty string). -/
def toDbTimeEntry (userId : ℕ) (entry : TimeEntry) : DbTimeEntry :=
  { userId := userId
    zohoTimesheetId := entry.id
    date := entry.date
    project := entry.project
    employee := entry.employee
    job := if entry.job = "" then none else some entry.job
    billableHours := entry.billableHours
    nonBillableHours := entry.nonBillableHours
    totalHours := entry.totalHours }

/-- The row built for `storage.saveProjectHours({...})` and
`storage.saveEmployeeHours({...})` in `syncTimesheetData`; `now` is the
`new Date()` taken for `lastSyncDate`. -/
def toDbHours (userId : ℕ) (now : ℤ) (p : ProjectHours) : DbProjectHours :=
  { userId := userId
    name := p.name
    billableHours := p.billableHours
    nonBillableHours := p.nonBillableHours
    totalHours := p.totalHours
    lastSyncDate := now }

/-- The insert/upsert phase of `syncTimesheetData` after the clear: insert
every time entry, then upsert every project summary, then every employee
summary. -/
def insertPhase (userId : ℕ) (now : ℤ) (processedData : TimesheetData) (s : Store) : Store :=
  { timeEntries := processedData.timeEntries.foldl
      (fun table entry => saveTimeEntry (toDbTimeEntry userId entry) table) s.timeEntries
    projectHours := processedData.projectHours.foldl
      (fun table p => saveProjectHours (toDbHours userId now p) table) s.projectHours
    employeeHours := processedData.employeeHours.foldl
      (fun table p => saveProjectHours (toDbHours userId now p) table) s.employeeHours }

/-- The full persistence sequence of `syncTimesheetData`: clear the user's
rows, then run the insert/upsert phase on the processed data. -/
def persistTimesheetData (userId : ℕ) (now : ℤ) (processedData : TimesheetData)
    (s : Store) : Store :=
  insertPhase userId now processedData (clearUserTimesheetData userId s)

/-! ### Persistence lemmas -/

theorem foldl_saveTimeEntry (u : ℕ) (entries : List TimeEntry) :
    ∀ table, entries.foldl (fun t e => saveTimeEntry (toDbTimeEntry u e) t) table =
      table ++ entries.map (toDbTimeEntry u) := by
  induction entries with
  | nil => intro t; simp
  | cons e es ih =>
    intro t
    rw [List.foldl_cons, ih]
    simp [saveTimeEntry]

theorem filter_idem {α : Type} (p : α → Bool) (l : List α) :
    (l.filter p).filter p = l.filter p := by
  induction l with
  | nil => rfl
  | cons x l ih => by_cases h : p x <;> simp [List.filter_cons, h, ih]

theorem filter_ne_saveProjectHours (u : ℕ) (row : DbProjectHours) (hrow : row.userId = u)
    (table : List DbProjectHours) :
    (saveProjectHours row table).filter (fun r => r.userId != u) =
      table.filter (fun r => r.userId != u) := by
  induction table with
  | nil => simp [saveProjectHours, hrow]
  | cons r rest ih =>
    by_cases h : r.userId = row.userId ∧ r.name = row.name
    · have hr : r.userId = u := h.1.trans hrow
      simp [saveProjectHours, h, List.filter_cons, hrow, hr]
    · simp only [saveProjectHours, if_neg h, List.filter_cons, ih]

theorem filter_ne_foldl_save (u : ℕ) (now : ℤ) (ps : List ProjectHours) :
    ∀ table, ((ps.foldl (fun t p => saveProjectHours (toDbHours u now p) t) table).filter
        (fun r => r.userId != u)) =
      table.filter (fun r => r.userId != u) := by
  induction ps with
  | nil => intro t; rfl
  | cons p ps ih =>
    intro t
    rw [List.foldl_cons, ih, filter_ne_saveProjectHours u _ rfl]

theorem filter_ne_map_toDbTimeEntry (u : ℕ) (entries : List TimeEntry) :
    (entries.map (toDbTimeEntry u)).filter (fun r => r.userId != u) = [] := by
  apply List.filter_eq_nil_iff.mpr
  intro a ha
  obtain ⟨e, _, rfl⟩ := List.mem_map.mp ha
  simp [toDbTimeEntry]

/-- Clearing after a persistence run removes exactly the rows the run wrote:
the run only touches rows of its own user. -/
theorem clear_persist (u : ℕ) (now : ℤ) (p : TimesheetData) (s : Store) :
    clearUserTimesheetData u (persistTimesheetData u now p s) =
      clearUserTimesheetData u s := by
  show Store.mk _ _ _ = Store.mk _ _ _
  simp only [Store.mk.injEq]
  refine ⟨?_, ?_, ?_⟩
  · show ((p.timeEntries.foldl _ (s.timeEntries.filter _)).filter _) = _
    rw [foldl_saveTimeEntry, List.filter_append, filter_idem, filter_ne_map_toDbTimeEntry,
      List.append_nil]
  · exact (filter_ne_foldl_save u now p.projectHours _).trans (filter_idem _ _)
  · exact (filter_ne_foldl_save u now p.employeeHours _).trans (filter_idem _ _)

/-! ### Claim C5 — persistence sync idempotence -/

/-- C5: running the full persistence sequence (clear the user's rows, insert
the entries, upsert the summaries) twice in a row for the same user, the same
aggregation input and the same sync timestamp leaves the store identical to
the state after the first run: the sequence only writes rows of its own user,
and the clear erases exactly those rows again. -/
theorem c5_persist_idempotent (u : ℕ) (now : ℤ) (data : List ZohoTimesheetRecord)
    (s : Store) :
    persistTimesheetData u now (processTimesheetData data)
        (persistTimesheetData u now (processTimesheetData data) s) =
      persistTimesheetData u now (processTimesheetData data) s := by
  show insertPhase u now (processTimesheetData data)
      (clearUserTimesheetData u (persistTimesheetData u now (processTimesheetData data) s)) = _
  rw [clear_persist]
  rfl

/-! ### Upsert-fold lemmas for the sync part of C2 -/

theorem save_eq_append (row : DbProjectHours) :
    ∀ table, (∀ r ∈ table, ¬(r.userId = row.userId ∧ r.name = row.name)) →
      saveProjectHours row table = table ++ [row] := by
  intro table
  induction table with
  | nil => intro _; rfl
  | cons r rest ih =>
    intro h
    simp only [saveProjectHours, if_neg (h r (List.mem_cons_self r rest))]
    rw [ih (fun r' hr' => h r' (List.mem_cons_of_mem r hr'))]
    rfl

theorem foldl_save_eq_append (u : ℕ) (now : ℤ) :
    ∀ (ps : List ProjectHours) (table : List DbProjectHours),
      (ps.map ProjectHours.name).Nodup →
      (∀ r ∈ table, r.userId = u → r.name ∉ ps.map ProjectHours.name) →
      ps.foldl (fun t p => saveProjectHours (toDbHours u now p) t) table =
        table ++ ps.map (toDbHours u now) := by
  intro ps
  induction ps with
  | nil => intro table _ _; simp
  | cons p ps ih =>
    intro table hnd htable
    rw [List.map_cons, List.nodup_cons] at hnd
    have h1 : ∀ r ∈ table,
        ¬(r.userId = (toDbHours u now p).userId ∧ r.name = (toDbHours u now p).name) := by
      intro r hr hcontra
      apply htable r hr hcontra.1
      rw [List.map_cons]
      have hname : r.name = p.name := hcontra.2
      rw [hname]
      exact List.mem_cons_self p.name _
    have h2 : ∀ r ∈ table ++ [toDbHours u now p],
        r.userId = u → r.name ∉ ps.map ProjectHours.name := by
      intro r hr hru
      rcases List.mem_append.mp hr with h | h
      · intro hmem
        apply htable r h hru
        rw [List.map_cons]
        exact List.mem_cons_of_mem _ hmem
      · rw [List.mem_singleton] at h
        subst h
        exact hnd.1
    rw [List.foldl_cons, save_eq_append _ table h1, ih (table ++ [toDbHours u now p]) hnd.2 h2]
    simp

theorem persist_timeEntries (u : ℕ) (now : ℤ) (pd : TimesheetData) (s : Store) :
    (persistTimesheetData u now pd s).timeEntries =
      (clearUserTimesheetData u s).timeEntries ++ pd.timeEntries.map (toDbTimeEntry u) := by
  show pd.timeEntries.foldl _ _ = _
  rw [foldl_saveTimeEntry]

theorem persist_projectHours (u : ℕ) (now : ℤ) (pd : TimesheetData) (s : Store)
    (hnd : (pd.projectHours.map ProjectHours.name).Nodup) :
    (persistTimesheetData u now pd s).projectHours =
      (clearUserTimesheetData u s).projectHours ++ pd.projectHours.map (toDbHours u now) := by
  show pd.projectHours.foldl _ _ = _
  apply foldl_save_eq_append u now pd.projectHours _ hnd
  intro r hr hru
  exfalso
  have := (List.mem_filter.mp hr).2
  simp [hru] at this

theorem persist_employeeHours (u : ℕ) (now : ℤ) (pd : TimesheetData) (s : Store)
    (hnd : (pd.employeeHours.map ProjectHours.name).Nodup) :
    (persistTimesheetData u now pd s).employeeHours =
      (clearUserTimesheetData u s).employeeHours ++ pd.employeeHours.map (toDbHours u now) := by
  show pd.employeeHours.foldl _ _ = _
  apply foldl_save_eq_append u now pd.employeeHours _ hnd
  intro r hr hru
  exfalso
  have := (List.mem_filter.mp hr).2
  simp [hru] at this

theorem persist_entries_filter_project (u : ℕ) (now : ℤ) (pd : TimesheetData) (s : Store)
    (n : String) :
    (persistTimesheetData u now pd s).timeEntries.filter
        (fun e => e.userId == u && e.project == n) =
      (pd.timeEntries.filter (fun e => e.project == n)).map (toDbTimeEntry u) := by
  rw [persist_timeEntries, List.filter_append]
  have h1 : (clearUserTimesheetData u s).timeEntries.filter
      (fun e => e.userId == u && e.project == n) = [] := by
    apply List.filter_eq_nil_iff.mpr
    intro a ha
    have hne : a.userId ≠ u := by
      have := (List.mem_filter.mp ha).2
      simpa using this
    simp [hne]
  rw [h1, List.nil_append, filter_map_swap]
  have h2 : pd.timeEntries.filter
      (fun e => (toDbTimeEntry u e).userId == u && (toDbTimeEntry u e).project == n) =
      pd.timeEntries.filter (fun e => e.project == n) := by
    apply List.filter_congr
    intro a _
    simp [toDbTimeEntry]
  rw [h2]

theorem persist_entries_filter_employee (u : ℕ) (now : ℤ) (pd : TimesheetData) (s : Store)
    (n : String) :
    (persistTimesheetData u now pd s).timeEntries.filter
        (fun e => e.userId == u && e.employee == n) =
      (pd.timeEntries.filter (fun e => e.employee == n)).map (toDbTimeEntry u) := by
  rw [persist_timeEntries, List.filter_append]
  have h1 : (clearUserTimesheetData u s).timeEntries.filter
      (fun e => e.userId == u && e.employee == n) = [] := by
    apply List.filter_eq_nil_iff.mpr
    intro a ha
    have hne : a.userId ≠ u := by
      have := (List.mem_filter.mp ha).2
      simpa using this
    simp [hne]
  rw [h1, List.nil_append, filter_map_swap]
  have h2 : pd.timeEntries.filter
      (fun e => (toDbTimeEntry u e).userId == u && (toDbTimeEntry u e).employee == n) =
      pd.timeEntries.filter (fun e => e.employee == n) := by
    apply List.filter_congr
    intro a _
    simp [toDbTimeEntry]
  rw [h2]

theorem project_sums_entries (data : List ZohoTimesheetRecord) (n : String) :
    ((((processTimesheetData data).timeEntries.filter (fun e => e.project == n)).map
        TimeEntry.billableHours).sum = sumBillable (data.filter (fun r => r.projectName == n))) ∧
    ((((processTimesheetData data).timeEntries.filter (fun e => e.project == n)).map
        TimeEntry.nonBillableHours).sum =
      sumNonBillable (data.filter (fun r => r.projectName == n))) ∧
    ((((processTimesheetData data).timeEntries.filter (fun e => e.project == n)).map
        TimeEntry.totalHours).sum = sumTotal (data.filter (fun r => r.projectName == n))) := by
  rw [entries_filter_project]
  refine ⟨?_, ?_, ?_⟩ <;> (rw [List.map_map]; rfl)

theorem employee_sums_entries (data : List ZohoTimesheetRecord) (n : String) :
    ((((processTimesheetData data).timeEntries.filter (fun e => e.employee == n)).map
        TimeEntry.billableHours).sum = sumBillable (data.filter (fun r => r.userName == n))) ∧
    ((((processTimesheetData data).timeEntries.filter (fun e => e.employee == n)).map
        TimeEntry.nonBillableHours).sum =
      sumNonBillable (data.filter (fun r => r.userName == n))) ∧
    ((((processTimesheetData data).timeEntries.filter (fun e => e.employee == n)).map
        TimeEntry.totalHours).sum = sumTotal (data.filter (fun r => r.userName == n))) := by
  rw [entries_filter_employee]
  refine ⟨?_, ?_, ?_⟩ <;> (rw [List.map_map]; rfl)

/-! ### Claim C2 — summary partition property -/

/-- C2: the project summaries partition the entries exactly by project name
(one summary per distinct name, whose three hour fields are the sums over
exactly the entries with that name), symmetrically for employee summaries by
employee name, and after a completed persistence sync every stored summary
row of the syncing user carries exactly the per-name sums of that user's
stored time-entry rows. -/
theorem c2_partition_and_sync (data : List ZohoTimesheetRecord) (u : ℕ) (now : ℤ)
    (s : Store) :
    (((processTimesheetData data).projectHours.map ProjectHours.name).Nodup ∧
     (∀ n, (∃ ph ∈ (processTimesheetData data).projectHours, ph.name = n) ↔
        n ∈ data.map (fun r => r.projectName)) ∧
     (∀ ph ∈ (processTimesheetData data).projectHours,
        ph.billableHours = (((processTimesheetData data).timeEntries.filter
            (fun e => e.project == ph.name)).map TimeEntry.billableHours).sum ∧
        ph.nonBillableHours = (((processTimesheetData data).timeEntries.filter
            (fun e => e.project == ph.name)).map TimeEntry.nonBillableHours).sum ∧
        ph.totalHours = (((processTimesheetData data).timeEntries.filter
            (fun e => e.project == ph.name)).map TimeEntry.totalHours).sum)) ∧
    (((processTimesheetData data).employeeHours.map ProjectHours.name).Nodup ∧
     (∀ n, (∃ eh ∈ (processTimesheetData data).employeeHours, eh.name = n) ↔
        n ∈ data.map (fun r => r.userName)) ∧
     (∀ eh ∈ (processTimesheetData data).employeeHours,
        eh.billableHours = (((processTimesheetData data).timeEntries.filter
            (fun e => e.employee == eh.name)).map TimeEntry.billableHours).sum ∧
        eh.nonBillableHours = (((processTimesheetData data).timeEntries.filter
            (fun e => e.employee == eh.name)).map TimeEntry.nonBillableHours).sum ∧
        eh.totalHours = (((processTimesheetData data).timeEntries.filter
            (fun e => e.employee == eh.name)).map TimeEntry.totalHours).sum)) ∧
    ((∀ row ∈ (persistTimesheetData u now (processTimesheetData data) s).projectHours,
        row.userId = u →
        row.billableHours =
          (((persistTimesheetData u now (processTimesheetData data) s).timeEntries.filter
              (fun e => e.userId == u && e.project == row.name)).map
            DbTimeEntry.billableHours).sum ∧
        row.nonBillableHours =
          (((persistTimesheetData u now (processTimesheetData data) s).timeEntries.filter
              (fun e => e.userId == u && e.project == row.name)).map
            DbTimeEntry.nonBillableHours).sum ∧
        row.totalHours =
          (((persistTimesheetData u now (processTimesheetData data) s).timeEntries.filter
              (fun e => e.userId == u && e.project == row.name)).map
            DbTimeEntry.totalHours).sum) ∧
     (∀ row ∈ (persistTimesheetData u now (processTimesheetData data) s).employeeHours,
        row.userId = u →
        row.billableHours =
          (((persistTimesheetData u now (processTimesheetData data) s).timeEntries.filter
              (fun e => e.userId == u && e.employee == row.name)).map
            DbTimeEntry.billableHours).sum ∧
        row.nonBillableHours =
          (((persistTimesheetData u now (processTimesheetData data) s).timeEntries.filter
              (fun e => e.userId == u && e.employee == row.name)).map
            DbTimeEntry.nonBillableHours).sum ∧
        row.totalHours =
          (((persistTimesheetData u now (processTimesheetData data) s).timeEntries.filter
              (fun e => e.userId == u && e.employee == row.name)).map
            DbTimeEntry.totalHours).sum)) := by
  have hndP : ((processTimesheetData data).projectHours.map ProjectHours.name).Nodup :=
    groupHours_names_nodup (fun r => r.projectName) data
  have hndE : ((processTimesheetData data).employeeHours.map ProjectHours.name).Nodup :=
    groupHours_names_nodup (fun r => r.userName) data
  refine ⟨⟨hndP, ?_, ?_⟩, ⟨hndE, ?_, ?_⟩, ?_, ?_⟩
  · intro n
    exact exists_groupHours_name_iff (fun r => r.projectName) data n
  · intro ph hph
    obtain ⟨hb, hnb, ht⟩ := groupHours_sums (fun r => r.projectName) data ph hph
    obtain ⟨eb, enb, et⟩ := project_sums_entries data ph.name
    exact ⟨hb.trans eb.symm, hnb.trans enb.symm, ht.trans et.symm⟩
  · intro n
    exact exists_groupHours_name_iff (fun r => r.userName) data n
  · intro eh heh
    obtain ⟨hb, hnb, ht⟩ := groupHours_sums (fun r => r.userName) data eh heh
    obtain ⟨eb, enb, et⟩ := employee_sums_entries data eh.name
    exact ⟨hb.trans eb.symm, hnb.trans enb.symm, ht.trans et.symm⟩
  · intro row hrow hru
    rw [persist_projectHours u now _ s hndP] at hrow
    rcases List.mem_append.mp hrow with h | h
    · exfalso
      have := (List.mem_filter.mp h).2
      simp [hru] at this
    · obtain ⟨ph, hph, rfl⟩ := List.mem_map.mp h
      obtain ⟨hb, hnb, ht⟩ := groupHours_sums (fun r => r.projectName) data ph hph
      obtain ⟨eb, enb, et⟩ := project_sums_entries data ph.name
      refine ⟨?_, ?_, ?_⟩
      · show ph.billableHours = (((persistTimesheetData u now (processTimesheetData data)
            s).timeEntries.filter (fun e => e.userId == u && e.project == ph.name)).map
          DbTimeEntry.billableHours).sum
        rw [persist_entries_filter_project u now (processTimesheetData data) s ph.name,
          List.map_map]
        exact hb.trans eb.symm
      · show ph.nonBillableHours = (((persistTimesheetData u now (processTimesheetData data)
            s).timeEntries.filter (fun e => e.userId == u && e.project == ph.name)).map
          DbTimeEntry.nonBillableHours).sum
        rw [persist_entries_filter_project u now (processTimesheetData data) s ph.name,
          List.map_map]
        exact hnb.trans enb.symm
      · show ph.totalHours = (((persistTimesheetData u now (processTimesheetData data)
            s).timeEntries.filter (fun e => e.userId == u && e.project == ph.name)).map
          DbTimeEntry.totalHours).sum
        rw [persist_entries_filter_project u now (processTimesheetData data) s ph.name,
          List.map_map]
        exact ht.trans et.symm
  · intro row hrow hru
    rw [persist_employeeHours u now _ s hndE] at hrow
    rcases List.mem_append.mp hrow with h | h
    · exfalso
      have := (List.mem_filter.mp h).2
      simp [hru] at this
    · obtain ⟨eh, heh, rfl⟩ := List.mem_map.mp h
      obtain ⟨hb, hnb, ht⟩ := groupHours_sums (fun r => r.userName) data eh heh
      obtain ⟨eb, enb, et⟩ := employee_sums_entries data eh.name
      refine ⟨?_, ?_, ?_⟩
      · show eh.billableHours = (((persistTimesheetData u now (processTimesheetData data)
            s).timeEntries.filter (fun e => e.userId == u && e.employee == eh.name)).map
          DbTimeEntry.billableHours).sum
        rw [persist_entries_filter_employee u now (processTimesheetData data) s eh.name,
          List.map_map]
        exact hb.trans eb.symm
      · show eh.nonBillableHours = (((persistTimesheetData u now (processTimesheetData data)
            s).timeEntries.filter (fun e => e.userId == u && e.employee == eh.name)).map
          DbTimeEntry.nonBillableHours).sum
        rw [persist_entries_filter_employee u now (processTimesheetData data) s eh.name,
          List.map_map]
        exact hnb.trans enb.symm
      · show eh.totalHours = (((persistTimesheetData u now (processTimesheetData data)
            s).timeEntries.filter (fun e => e.userId == u && e.employee == eh.name)).map
          DbTimeEntry.totalHours).sum
        rw [persist_entries_filter_employee u now (processTimesheetData data) s eh.name,
          List.map_map]
        exact ht.trans et.symm

/-- Witness for C2 at the concrete input `[consistentRecord]`: the membership
direction of the partition property produces the expected project summary. -/
theorem c2_partition_and_sync_witness :
    ∃ ph ∈ (processTimesheetData [consistentRecord]).projectHours,
      ph.name = "Mobile App Development" := by
  have h := c2_partition_and_sync [consistentRecord] 1 0 ⟨[], [], []⟩
  exact (h.1.2.1 "Mobile App Development").mpr (by decide)

/-! ### Credential store (`zoho_credentials` table and its handlers) -/

/-- Stored `zoho_credentials` row (`shared/schema.ts`).  Timestamps are epoch
milliseconds; the defaulted `createdAt` audit column is omitted. -/
structure ZohoCredentials where
  id : ℕ
  userId : ℕ
  clientId : String
  clientSecret : String
  organization : String
  accessToken : Option String
  refreshToken : Option String
  expiresAt : Option ℤ
  updatedAt : ℤ
  deriving Repr, DecidableEq

/-- The `zoho_credentials` table, rows in insertion order. -/
abbrev CredStore := List ZohoCredentials

/-- `DatabaseStorage.getZohoCredentials`: the first row whose `userId`
matches (`select ... where eq(zohoCredentials.userId, userId)`, destructured
to its first element). -/
def getZohoCredentials (userId : ℕ) (store : CredStore) : Option ZohoCredentials :=
  store.find? (fun c => c.userId == userId)

/-- A `Partial<InsertZohoCredentials>` update payload for
`DatabaseStorage.updateZohoCredentials`: `none` means the field is absent
from the partial update; for the nullable columns `some none` writes SQL
NULL. -/
structure ZohoCredentialUpdate where
  clientId : Option String := none
  clientSecret : Option String := none
  organization : Option String := none
  accessToken : Option (Option String) := none
  refreshToken : Option (Option String) := none
  expiresAt : Option (Option ℤ) := none
  deriving Repr, DecidableEq

/-- Effect of `.set({...updates, updatedAt: new Date()})` on one row. -/
def applyCredentialUpdate (upd : ZohoCredentialUpdate) (now : ℤ)
    (c : ZohoCredentials) : ZohoCredentials :=
  { c with
      clientId := upd.clientId.getD c.clientId
      clientSecret := upd.clientSecret.getD c.clientSecret
      organization := upd.organization.getD c.organization
      accessToken := upd.accessToken.getD c.accessToken
      refreshToken := upd.refreshToken.getD c.refreshToken
      expiresAt := upd.expiresAt.getD c.expiresAt
      updatedAt := now }

/-- `DatabaseStorage.updateZohoCredentials`: update the rows matching the
given primary-key id in place. -/
def updateZohoCredentials (id : ℕ) (upd : ZohoCredentialUpdate) (now : ℤ)
    (store : CredStore) : CredStore :=
  store.map (fun c => if c.id = id then applyCredentialUpdate upd now c else c)

/-- JS truthiness of `credentials?.accessToken`: false for a missing row, a
NULL token, or the empty string. -/
def tokenTruthy (c : Option ZohoCredentials) : Bool :=
  match c with
  | none => false
  | some c =>
    match c.accessToken with
    | none => false
    | some t => t != ""

/-- Body of the `/api/zoho/status` responses. -/
structure ZohoStatusResponse where
  connected : Bool
  expiresAt : Option ℤ
  deriving Repr, DecidableEq

/-- `getZohoStatus` (`server/zoho.ts`) and the identical `/api/zoho/status`
handlers: a pure read of the credential row reporting
`connected: !!credentials?.accessToken` and
`expiresAt: credentials?.expiresAt || null`.  No expiry comparison occurs. -/
def getZohoStatus (userId : ℕ) (store : CredStore) : ZohoStatusResponse :=
  let credentials := getZohoCredentials userId store
  { connected := tokenTruthy credentials
    expiresAt := credentials.bind (fun c => c.expiresAt) }

/-- Body of the success/failure JSON responses of the credential handlers. -/
structure SimpleResponse where
  success : Bool
  message : String
  deriving Repr, DecidableEq

/-- The `{accessToken: null, refreshToken: null, expiresAt: null}` payload the
disconnect handlers send to `updateZohoCredentials`. -/
def disconnectUpdate : ZohoCredentialUpdate :=
  { accessToken := some none, refreshToken := some none, expiresAt := some none }

/-- `disconnectZoho` (`server/zoho.ts`) and the identical
`/api/zoho/disconnect` handlers: if the user has a credential row, null its
three token fields; answer success either way. -/
def disconnectZoho (userId : ℕ) (now : ℤ) (store : CredStore) :
    SimpleResponse × CredStore :=
  match getZohoCredentials userId store with
  | some credentials =>
    ({ success := true, message := "Successfully disconnected from Zoho People" },
      updateZohoCredentials credentials.id disconnectUpdate now store)
  | none =>
    ({ success := true, message := "Successfully disconnected from Zoho People" }, store)

/-! ### Credential lemmas -/

theorem find?_map_pred {α : Type} (g : α → α) (p : α → Bool) (l : List α)
    (hp : ∀ x, p (g x) = p x) : (l.map g).find? p = (l.find? p).map g := by
  induction l with
  | nil => rfl
  | cons x l ih =>
    cases h : p x with
    | true =>
      rw [List.map_cons, List.find?_cons_of_pos _ ((hp x).trans h),
        List.find?_cons_of_pos _ h, Option.map_some']
    | false =>
      rw [List.map_cons,
        List.find?_cons_of_neg _ (by rw [hp x, h]; exact Bool.false_ne_true),
        List.find?_cons_of_neg _ (by rw [h]; exact Bool.false_ne_true), ih]

theorem getZohoCredentials_after_disconnect (u : ℕ) (now : ℤ) (store : CredStore)
    (c : ZohoCredentials) (hc : getZohoCredentials u store = some c) :
    getZohoCredentials u (disconnectZoho u now store).2 =
      some (applyCredentialUpdate disconnectUpdate now c) := by
  unfold disconnectZoho
  rw [hc]
  show getZohoCredentials u (updateZohoCredentials c.id disconnectUpdate now store) = _
  unfold getZohoCredentials updateZohoCredentials
  rw [find?_map_pred]
  · unfold getZohoCredentials at hc
    rw [hc, Option.map_some', if_pos rfl]
  · intro x
    by_cases h : x.id = c.id <;> simp [h, applyCredentialUpdate]

/-! ### Claim C6 — status() and token expiry -/

/-- A credential row whose access token is present but whose expiry
timestamp (epoch 0) is long past. -/
def expiredCredential : ZohoCredentials :=
  { id := 1, userId := 1, clientId := "client-id", clientSecret := "client-secret"
    organization := "acme", accessToken := some "self_client_token"
    refreshToken := some "refresh_token", expiresAt := some 0, updatedAt := 0 }

/-- Claim C6, exactly as stated, is false: the status handler checks only
`!!credentials?.accessToken` and never compares `expiresAt` with the current
time, so a credential whose expiry (epoch 0) is in the past (now = 1000)
still reports `connected: true`. -/
theorem c6_counterexample :
    ¬ (∀ (store : CredStore) (u : ℕ) (now : ℤ) (c : ZohoCredentials) (e : ℤ),
        getZohoCredentials u store = some c → c.expiresAt = some e → e < now →
        (getZohoStatus u store).connected = false) := by
  intro hclaim
  have h := hclaim [expiredCredential] 1 1000 expiredCredential 0 rfl rfl (by norm_num)
  simp [getZohoStatus, getZohoCredentials, expiredCredential, tokenTruthy] at h

/-- C6 (amended): `status()` is a pure read (it only queries the credential
row) and reports `connected: true` iff the stored credential holds a truthy
(non-null, non-empty) access token; the expiry timestamp is not consulted at
all. -/
theorem c6_status_connected (store : CredStore) (u : ℕ) :
    (getZohoStatus u store).connected = true ↔
      ∃ c t, getZohoCredentials u store = some c ∧ c.accessToken = some t ∧ t ≠ "" := by
  show tokenTruthy (getZohoCredentials u store) = true ↔ _
  cases hc : getZohoCredentials u store with
  | none => simp [tokenTruthy]
  | some c =>
    cases ht : c.accessToken with
    | none => simp [tokenTruthy, ht]
    | some t => simp [tokenTruthy, ht]

/-! ### Claim C7 — disconnect() postcondition and frame -/

/-- C7: from any starting credential state, after `disconnect()` the response
is success, an immediately following `status()` reports `connected:false`,
the stored token fields are all NULL, and the stored `clientId`,
`clientSecret` and `organization` are exactly what they were before. -/
theorem c7_disconnect_frame (store : CredStore) (u : ℕ) (now : ℤ) :
    (disconnectZoho u now store).1.success = true ∧
    (getZohoStatus u (disconnectZoho u now store).2).connected = false ∧
    (∀ c', getZohoCredentials u (disconnectZoho u now store).2 = some c' →
      c'.accessToken = none ∧ c'.refreshToken = none ∧ c'.expiresAt = none) ∧
    (∀ c c', getZohoCredentials u store = some c →
      getZohoCredentials u (disconnectZoho u now store).2 = some c' →
      c'.clientId = c.clientId ∧ c'.clientSecret = c.clientSecret ∧
        c'.organization = c.organization) := by
  cases hc : getZohoCredentials u store with
  | none =>
    have hstore : (disconnectZoho u now store).2 = store := by
      unfold disconnectZoho
      rw [hc]
    refine ⟨?_, ?_, ?_, ?_⟩
    · unfold disconnectZoho
      rw [hc]
    · rw [hstore]
      show tokenTruthy (getZohoCredentials u store) = false
      rw [hc]
      rfl
    · intro c' hc'
      rw [hstore, hc] at hc'
      exact absurd hc' (by simp)
    · intro c c' hcc _
      exact absurd hcc (by simp)
  | some c =>
    have hafter := getZohoCredentials_after_disconnect u now store c hc
    refine ⟨?_, ?_, ?_, ?_⟩
    · unfold disconnectZoho
      rw [hc]
    · show tokenTruthy (getZohoCredentials u (disconnectZoho u now store).2) = false
      rw [hafter]
      rfl
    · intro c' hc'
      rw [hafter] at hc'
      have : c' = applyCredentialUpdate disconnectUpdate now c := by
        exact (Option.some.inj hc').symm
      subst this
      exact ⟨rfl, rfl, rfl⟩
    · intro c0 c' hc0 hc'
      have hcc : c0 = c := (Option.some.inj hc0).symm
      subst hcc
      rw [hafter] at hc'
      have : c' = applyCredentialUpdate disconnectUpdate now c0 := (Option.some.inj hc').symm
      subst this
      exact ⟨rfl, rfl, rfl⟩

/-- A linked credential row used to witness C7 at a concrete input. -/
def linkedCredential : ZohoCredentials :=
  { id := 2, userId := 7, clientId := "cid", clientSecret := "secret"
    organization := "org", accessToken := some "zoho_access_token"
    refreshToken := some "zoho_refresh_token", expiresAt := some 1000, updatedAt := 0 }

/-- Witness for C7 on the concrete one-row store `[linkedCredential]`. -/
theorem c7_disconnect_frame_witness :
    (disconnectZoho 7 5 [linkedCredential]).1.success = true ∧
    (getZohoStatus 7 (disconnectZoho 7 5 [linkedCredential]).2).connected = false ∧
    (applyCredentialUpdate disconnectUpdate 5 linkedCredential).accessToken = none ∧
    (applyCredentialUpdate disconnectUpdate 5 linkedCredential).clientId =
      linkedCredential.clientId := by
  have h := c7_disconnect_frame [linkedCredential] 7 5
  have hsome : getZohoCredentials 7 (disconnectZoho 7 5 [linkedCredential]).2 =
      some (applyCredentialUpdate disconnectUpdate 5 linkedCredential) :=
    getZohoCredentials_after_disconnect 7 5 [linkedCredential] linkedCredential rfl
  exact ⟨h.1, h.2.1, (h.2.2.1 _ hsome).1,
    (h.2.2.2 linkedCredential _ rfl hsome).1⟩

/-! ### Claim C10 — disconnect() on an unlinked user -/

/-- C10: for a user with no stored credential row, `disconnect()` answers
success and leaves the credential store exactly unchanged — the update branch
is skipped, so no row is created or modified. -/
theorem c10_disconnect_unlinked (store : CredStore) (u : ℕ) (now : ℤ)
    (h : getZohoCredentials u store = none) :
    disconnectZoho u now store =
      ({ success := true, message := "Successfully disconnected from Zoho People" }, store) := by
  unfold disconnectZoho
  rw [h]

/-- Witness for C10 on the empty credential store. -/
theorem c10_disconnect_unlinked_witness :
    disconnectZoho 3 0 [] =
      ({ success := true, message := "Successfully disconnected from Zoho People" }, []) :=
  c10_disconnect_unlinked [] 3 0 rfl

/-! ### The sync request handler (`syncTimesheetData` in `sync.ts`) -/

/-- HTTP-level JSON response of the sync handler (`res.status(...).json`,
with an implicit 200 for plain `res.json`).  The row-count stats of the
success body are not modelled (no claim mentions them). -/
structure SyncResponse where
  status : ℕ
  success : Bool
  message : String
  deriving Repr, DecidableEq

/-- Outcome of the outbound `axios.get` to the Zoho People API: either the
transformed record list of a 2xx response, or a thrown error carrying the
HTTP status of the failed response. -/
inductive FetchOutcome where
  | records : List ZohoTimesheetRecord → FetchOutcome
  | httpError : ℕ → FetchOutcome
  deriving Repr, DecidableEq

/-- `syncTimesheetData` from `sync.ts` (the axios-backed variant).  The
request context is passed explicitly: the session check, the `dateRange`
query parameter, the credential row, the fetch outcome, the random fixture
records the fallback would generate for the interval, and the current time.
Guard order follows the source: authentication, date-range presence,
`!credentials?.accessToken`, then the fetch; a 401 from the API answers 401
with the reconnect message before any database write, any other fetch
failure answers 500, and a successful (possibly fixture-substituted) fetch
aggregates and runs the clear/insert/upsert persistence sequence. -/
def syncTimesheetData (authenticated : Bool) (dateRange : Option String)
    (credentials : Option ZohoCredentials) (fetch : FetchOutcome)
    (simulated : List ZohoTimesheetRecord) (userId : ℕ) (now : ℤ) (s : Store) :
    SyncResponse × Store :=
  if !authenticated then
    ({ status := 401, success := false, message := "Not authenticated" }, s)
  else
    match dateRange with
    | none => ({ status := 400, success := false, message := "Date range is required" }, s)
    | some _ =>
      if !(tokenTruthy credentials) then
        ({ status := 400, success := false, message := "Zoho is not connected" }, s)
      else
        match fetch with
        | .httpError st =>
          if st = 401 then
            ({ status := 401, success := false
               message := "Zoho access token expired. Please reconnect your Zoho account." }, s)
          else
            ({ status := 500, success := false
               message := "Failed to fetch data from Zoho API. Please verify your credentials." }, s)
        | .records fetched =>
          let zohoData := if fetched = [] then simulated else fetched
          ({ status := 200, success := true
             message := "Timesheet data synchronized successfully" },
            persistTimesheetData userId now (processTimesheetData zohoData) s)

/-! ### Claim C3 — no data loss on a failed fetch -/

/-- C3: when the upstream fetch fails with HTTP 401, the sync handler answers
a distinguishable error (status 401 with the reconnect message, different
from the response of every other fetch failure) and returns before the
delete step, so the stored time entries, project summaries and employee
summaries are exactly as they were. -/
theorem c3_auth_expired_no_data_loss (dr : String)
    (credentials : Option ZohoCredentials) (simulated : List ZohoTimesheetRecord)
    (u : ℕ) (now : ℤ) (s : Store) (hcred : tokenTruthy credentials = true) :
    (syncTimesheetData true (some dr) credentials (.httpError 401) simulated u now s).2 = s ∧
    (syncTimesheetData true (some dr) credentials (.httpError 401) simulated u now s).1.status
      = 401 ∧
    (syncTimesheetData true (some dr) credentials (.httpError 401) simulated u now s).1.success
      = false ∧
    (syncTimesheetData true (some dr) credentials (.httpError 401) simulated u now s).1.message
      = "Zoho access token expired. Please reconnect your Zoho account." ∧
    (∀ st', st' ≠ 401 →
      (syncTimesheetData true (some dr) credentials (.httpError st') simulated u now s).1 ≠
        (syncTimesheetData true (some dr) credentials (.httpError 401) simulated u now s).1) := by
  have h401 : syncTimesheetData true (some dr) credentials (.httpError 401) simulated u now s =
      ({ status := 401, success := false
         message := "Zoho access token expired. Please reconnect your Zoho account." }, s) := by
    unfold syncTimesheetData
    rw [hcred]
    rfl
  refine ⟨by rw [h401], by rw [h401], by rw [h401], by rw [h401], ?_⟩
  intro st' hst
  have hother : syncTimesheetData true (some dr) credentials (.httpError st') simulated u now s =
      ({ status := 500, success := false
         message := "Failed to fetch data from Zoho API. Please verify your credentials." }, s) := by
    unfold syncTimesheetData
    rw [hcred]
    simp [hst]
  rw [h401, hother]
  simp

/-- A connected credential row for the C3 witness. -/
def connectedCredential : ZohoCredentials :=
  { id := 4, userId := 1, clientId := "client", clientSecret := "secret"
    organization := "org", accessToken := some "self_client_token"
    refreshToken := some "refresh_token", expiresAt := some 4102444800, updatedAt := 0 }

/-- Witness for C3 at a concrete connected credential and the empty store. -/
theorem c3_auth_expired_no_data_loss_witness :
    tokenTruthy (some connectedCredential) = true ∧
    (syncTimesheetData true (some "Last 7 days") (some connectedCredential)
        (.httpError 401) [] 1 0 ⟨[], [], []⟩).2 = ⟨[], [], []⟩ ∧
    (syncTimesheetData true (some "Last 7 days") (some connectedCredential)
        (.httpError 401) [] 1 0 ⟨[], [], []⟩).1.status = 401 := by
  have h := c3_auth_expired_no_data_loss "Last 7 days" (some connectedCredential) [] 1 0
    ⟨[], [], []⟩ (by decide)
  exact ⟨by decide, h.1, h.2.1⟩

/-! ### JS `Date` model and `calculateDateRangeFromString`

`client/src/lib/utils.ts` computes its ranges with `new Date(y, m, d)`, which
normalizes any integer month (carrying into the year, 0-based months) and any
integer day (day 1 is the first of the month; day 0 is the last day of the
previous month) over the proleptic Gregorian calendar.  The model maps a
civil triple to its day ordinal; `new Date()` — the current instant — is the
ordinal of today plus the elapsed fraction of the day. -/

/-- Days before civil year `y`, counted from year 0, with the Gregorian leap
rule folded into floor divisions. -/
def daysBeforeYear (y : ℤ) : ℤ :=
  365 * y + (y + 3) / 4 - (y + 99) / 100 + (y + 399) / 400

/-- The Gregorian leap-year test. -/
def isLeapYear (y : ℤ) : Bool :=
  (y % 4 == 0 && y % 100 != 0) || y % 400 == 0

/-- Days before 0-based month `m` (for 0 ≤ m < 12) in a year with the given
leap flag. -/
def daysBeforeMonth (leap : Bool) (m : ℤ) : ℤ :=
  let l : ℤ := if leap then 1 else 0
  if m ≤ 0 then 0
  else if m = 1 then 31
  else if m = 2 then 59 + l
  else if m = 3 then 90 + l
  else if m = 4 then 120 + l
  else if m = 5 then 151 + l
  else if m = 6 then 181 + l
  else if m = 7 then 212 + l
  else if m = 8 then 243 + l
  else if m = 9 then 273 + l
  else if m = 10 then 304 + l
  else 334 + l

/-- Day ordinal of `new Date(y, m, d)` at midnight: the month is normalized
by carrying `m` into the year (0-based), then `d - 1` days are added to the
first of that month. -/
def dayNumber (y m d : ℤ) : ℤ :=
  daysBeforeYear ((12 * y + m) / 12) +
    daysBeforeMonth (isLeapYear ((12 * y + m) / 12)) ((12 * y + m) % 12) +
    (d - 1)

/-- The `{ startDate, endDate }` pair returned by
`calculateDateRangeFromString`, as instants in fractional days. -/
structure DateRange where
  startDate : ℚ
  endDate : ℚ
  deriving Repr, DecidableEq

/-- `calculateDateRangeFromString` from `client/src/lib/utils.ts`.  The
current instant is today's civil date `(y, m, d)` (0-based month) plus the
elapsed fraction `tod` of the day; `startDate` and `endDate` are initialized
to that instant and reassigned per the `switch`, whose default case matches
the `'Last 7 days'` case. -/
def calculateDateRangeFromString (dateRange : String) (y m d : ℤ) (tod : ℚ) :
    DateRange :=
  let now : ℚ := (dayNumber y m d : ℚ) + tod
  if dateRange = "Last 7 days" then
    { startDate := (dayNumber y m (d - 6) : ℚ), endDate := now }
  else if dateRange = "This month" then
    { startDate := (dayNumber y m 1 : ℚ), endDate := now }
  else if dateRange = "Last month" then
    { startDate := (dayNumber y (m - 1) 1 : ℚ), endDate := (dayNumber y m 0 : ℚ) }
  else if dateRange = "Custom range" then
    { startDate := (dayNumber y m 1 : ℚ), endDate := now }
  else
    { startDate := (dayNumber y m (d - 6) : ℚ), endDate := now }

/-! ### Calendar lemmas -/

theorem daysBeforeYear_step_lb (y : ℤ) :
    daysBeforeYear y + 365 ≤ daysBeforeYear (y + 1) := by
  unfold daysBeforeYear
  omega

theorem daysBeforeMonth_le_335 (l : Bool) (m : ℤ) : daysBeforeMonth l m ≤ 335 := by
  unfold daysBeforeMonth
  cases l <;> simp <;> omega

theorem daysBeforeMonth_zero (l : Bool) : daysBeforeMonth l 0 = 0 := by
  cases l <;> decide

theorem daysBeforeMonth_step (l : Bool) (m : ℤ) (h1 : 1 ≤ m) (h12 : m < 12) :
    daysBeforeMonth l (m - 1) + 1 ≤ daysBeforeMonth l m := by
  have h11 : m ≤ 11 := by omega
  interval_cases m <;> cases l <;> decide

theorem dayNumber_shift (y m d k : ℤ) : dayNumber y m (d + k) = dayNumber y m d + k := by
  unfold dayNumber
  ring

theorem dayNumber_day_mono (y m d1 d2 : ℤ) (h : d1 ≤ d2) :
    dayNumber y m d1 ≤ dayNumber y m d2 := by
  have hdiff : dayNumber y m d2 - dayNumber y m d1 = d2 - d1 := by
    unfold dayNumber
    ring
  linarith

theorem lastMonth_start_le_end (y m : ℤ) (h0 : 0 ≤ m) (h12 : m < 12) :
    dayNumber y (m - 1) 1 ≤ dayNumber y m 0 := by
  by_cases hm : 1 ≤ m
  · have e1 : (12 * y + (m - 1)) / 12 = y := by omega
    have e2 : (12 * y + (m - 1)) % 12 = m - 1 := by omega
    have e3 : (12 * y + m) / 12 = y := by omega
    have e4 : (12 * y + m) % 12 = m := by omega
    unfold dayNumber
    rw [e1, e2, e3, e4]
    have := daysBeforeMonth_step (isLeapYear y) m hm h12
    omega
  · have hm0 : m = 0 := by omega
    subst hm0
    have e1 : (12 * y + (0 - 1)) / 12 = y - 1 := by omega
    have e2 : (12 * y + (0 - 1)) % 12 = 11 := by omega
    have e3 : (12 * y + 0) / 12 = y := by omega
    have e4 : (12 * y + 0) % 12 = 0 := by omega
    unfold dayNumber
    rw [e1, e2, e3, e4]
    have hstep : daysBeforeYear (y - 1) + 365 ≤ daysBeforeYear (y - 1 + 1) :=
      daysBeforeYear_step_lb (y - 1)
    have hy : y - 1 + 1 = y := by ring
    rw [hy] at hstep
    have h11 : daysBeforeMonth (isLeapYear (y - 1)) 11 ≤ 335 :=
      daysBeforeMonth_le_335 (isLeapYear (y - 1)) 11
    have h0' : daysBeforeMonth (isLeapYear y) 0 = 0 := daysBeforeMonth_zero (isLeapYear y)
    omega

/-! ### Claim C9 — totality and defaulting of `calculateDateRangeFromString` -/

/-- C9: for the current instant being any valid calendar date-time (0-based
month in range, day at least 1, non-negative elapsed fraction of the day),
every date-range string — the four documented tokens included — yields
`startDate ≤ endDate`, and every unrecognized token falls through to the
default branch, producing exactly the `'Last 7 days'` range: start is six
calendar days before today at midnight, end is the current instant. -/
theorem c9_date_range_total (dateRange : String) (y m d : ℤ) (tod : ℚ)
    (hm0 : 0 ≤ m) (hm12 : m < 12) (hd : 1 ≤ d) (htod : 0 ≤ tod) :
    ((calculateDateRangeFromString dateRange y m d tod).startDate ≤
      (calculateDateRangeFromString dateRange y m d tod).endDate) ∧
    (dateRange ≠ "Last 7 days" → dateRange ≠ "This month" → dateRange ≠ "Last month" →
      dateRange ≠ "Custom range" →
      calculateDateRangeFromString dateRange y m d tod =
          calculateDateRangeFromString "Last 7 days" y m d tod ∧
      (calculateDateRangeFromString dateRange y m d tod).startDate =
          (dayNumber y m d : ℚ) - 6 ∧
      (calculateDateRangeFromString dateRange y m d tod).endDate =
          (dayNumber y m d : ℚ) + tod) := by
  have hshift : dayNumber y m (d - 6) = dayNumber y m d - 6 := by
    have := dayNumber_shift y m d (-6)
    have harg : d + (-6) = d - 6 := by ring
    rw [harg] at this
    linarith
  have hfirst : dayNumber y m 1 ≤ dayNumber y m d := dayNumber_day_mono y m 1 d hd
  constructor
  · unfold calculateDateRangeFromString
    split_ifs with h1 h2 h3 h4
    · show ((dayNumber y m (d - 6) : ℤ) : ℚ) ≤ (dayNumber y m d : ℚ) + tod
      rw [hshift]
      push_cast
      linarith
    · show ((dayNumber y m 1 : ℤ) : ℚ) ≤ (dayNumber y m d : ℚ) + tod
      have hc : ((dayNumber y m 1 : ℤ) : ℚ) ≤ ((dayNumber y m d : ℤ) : ℚ) := by
        exact_mod_cast hfirst
      linarith
    · show ((dayNumber y (m - 1) 1 : ℤ) : ℚ) ≤ ((dayNumber y m 0 : ℤ) : ℚ)
      exact_mod_cast lastMonth_start_le_end y m hm0 hm12
    · show ((dayNumber y m 1 : ℤ) : ℚ) ≤ (dayNumber y m d : ℚ) + tod
      have hc : ((dayNumber y m 1 : ℤ) : ℚ) ≤ ((dayNumber y m d : ℤ) : ℚ) := by
        exact_mod_cast hfirst
      linarith
    · show ((dayNumber y m (d - 6) : ℤ) : ℚ) ≤ (dayNumber y m d : ℚ) + tod
      rw [hshift]
      push_cast
      linarith
  · intro h1 h2 h3 h4
    unfold calculateDateRangeFromString
    rw [if_neg h1, if_neg h2, if_neg h3, if_neg h4]
    refine ⟨rfl, ?_, rfl⟩
    show ((dayNumber y m (d - 6) : ℤ) : ℚ) = (dayNumber y m d : ℚ) - 6
    rw [hshift]
    push_cast
    ring

/-- Witness for C9 at a concrete instant (October 11, 2026, noon) and an
unrecognized token. -/
theorem c9_date_range_total_witness :
    ((calculateDateRangeFromString "next sprint" 2026 9 11 (1 / 2)).startDate ≤
      (calculateDateRangeFromString "next sprint" 2026 9 11 (1 / 2)).endDate) ∧
    calculateDateRangeFromString "next sprint" 2026 9 11 (1 / 2) =
      calculateDateRangeFromString "Last 7 days" 2026 9 11 (1 / 2) := by
  have h := c9_date_range_total "next sprint" 2026 9 11 (1 / 2) (by norm_num) (by norm_num)
    (by norm_num) (by norm_num)
  exact ⟨h.1, ((h.2 (by decide) (by decide) (by decide) (by decide))).1⟩

end ZohoTimeReport
